import Mathlib

/-!
Verification of the quiche_mio_runner event-loop core: a shallow embedding
of `src/runner.rs`, `src/sockets.rs`, `src/socket.rs` and `src/recvfrom.rs`,
together with theorems settling the specification claims about the run loop,
the socket registry and the receive path.

Modelling conventions:
* `SocketAddr` is abstracted as `Addr := Nat` (address equality is all the
  code uses); bytes are `Byte := Nat`.
* `std::time::Duration` is modelled as `Nat` (nanoseconds); only `min` and
  zero are used by the code.
* A Rust `panic!` / failed `unwrap()` / failed `assert!` is modelled as the
  `none` case of an `Option` result (process abort), or as a dedicated
  `panicked` outcome constructor where the surrounding control flow matters.
* The protocol engine (`quiche_endpoint::Endpoint`) is an external
  collaborator; its per-call results are supplied as oracle parameters
  (`EngineRecv`, `IterInput` fields), while the runner's control flow around
  those results is translated from the source.
-/

abbrev Addr := Nat

abbrev Byte := Nat

/-- `std::io::ErrorKind`, restricted to the kinds the runner distinguishes. -/
inductive IOKind where
  | wouldBlock
  | interrupted
  | other
deriving DecidableEq

/-- `quiche_endpoint::Error` variants matched by `runner.rs`. -/
inductive EndpointError where
  | closeByUser
  | invalidHeader
  | unknownConnID
  | invalidConnID
  | invalidAddrToken
  | io (k : IOKind)
  | quicheRecvFailed
  | otherError
deriving DecidableEq

/--
Timeout computation, `runner.rs` lines 70-76:
```
let timeout = match (has_pending_sends, endpoint.timeout(), app_timeout.take()) {
    (true, _, _) => Some(Duration::from_secs(0)),
    (false, Some(d), None) => Some(d),
    (false, None, Some(d)) => Some(d),
    (false, Some(quic_timeout), Some(app_timeout)) => Some(min(quic_timeout, app_timeout)),
    (false, None, None) => None,
};
```
The `take()` on the app timeout is modelled separately in `runIteration`.
-/
def computeTimeout (hasPendingSends : Bool) (quicTimeout appTimeout : Option Nat) :
    Option Nat :=
  match hasPendingSends, quicTimeout, appTimeout with
  | true, _, _ => some 0
  | false, some d, none => some d
  | false, none, some d => some d
  | false, some q, some a => some (min q a)
  | false, none, none => none

/-! ## Socket registry (`src/sockets.rs`) -/

/-- The fields of `socket::Socket` used by the registry: the cached bound
local address (`socket.rs` line 17, immutable after `bind`). -/
structure MSocket where
  local_addr : Addr
deriving DecidableEq

/-- `quiche::SendInfo`, restricted to the field `sockets.rs` reads:
`src` models `send_info.from`, the engine-declared source address. -/
structure SendInfo where
  src : Addr
deriving DecidableEq

/-- `MioSockets`: `sockets` models the `Slab<Socket>` (a key maps to the
socket stored there, `none` for a vacant slot), `src_addr_to_key` the
`HashMap<SocketAddr, usize>` reverse index, and `next` the next free slab
key (this code never removes sockets, so the slab hands out 0, 1, 2, ...). -/
structure MioSockets where
  sockets : Nat → Option MSocket
  src_addr_to_key : Addr → Option Nat
  next : Nat

/-- `MioSockets::default()`: empty slab, empty reverse index. -/
def MioSockets.emptyReg : MioSockets :=
  ⟨fun _ => none, fun _ => none, 0⟩

/--
`MioSockets::insert`, `sockets.rs` lines 26-31:
```
let local_addr = socket.local_addr;
let key = self.sockets.insert(socket);
self.src_addr_to_key.insert(local_addr, key);
key
```
-/
def MioSockets.insert (s : MioSockets) (sock : MSocket) : Nat × MioSockets :=
  (s.next,
   { sockets := fun k => if k = s.next then some sock else s.sockets k,
     src_addr_to_key := fun a =>
       if a = sock.local_addr then some s.next else s.src_addr_to_key a,
     next := s.next + 1 })

/--
The socket resolution performed by `MioSockets::send`, `sockets.rs` lines
15-17:
```
let key = *self.src_addr_to_key.get(&send_info.from).unwrap();
let socket = unsafe { self.sockets.get_unchecked(key) };
```
`none` models the `unwrap()` panic on an unregistered source address (the
`get_unchecked` on a stale key would be UB; under the registry invariant the
key is always occupied). The actual transmission then delegates to
`Socket::send`. -/
def MioSockets.resolveSendSocket (s : MioSockets) (info : SendInfo) :
    Option MSocket :=
  match s.src_addr_to_key info.src with
  | none => none
  | some key => s.sockets key

/-- The registry invariant established by `MioSockets::insert`: every
reverse-index entry points at an occupied slab slot holding a socket whose
cached local address is the indexed address, and slots at or past `next`
are vacant. -/
def MioSockets.Inv (s : MioSockets) : Prop :=
  (∀ a k, s.src_addr_to_key a = some k →
    ∃ sock, s.sockets k = some sock ∧ sock.local_addr = a) ∧
  (∀ k, s.next ≤ k → s.sockets k = none)

/-! ## Receive primitives (`src/recvfrom.rs`) -/

/-- The triple returned by `recv_from`: merged length, origin address, and
the per-segment size (a `u16` in the source, hence the `% 65536` where the
source casts). -/
structure RecvTriple where
  len : Nat
  src : Addr
  seg : Nat
deriving DecidableEq

/-- One OS-level datagram delivery as seen by `recvmsg`: payload byte count,
origin address, and the values of any `UdpGroSegments` control messages
attached (empty when the kernel coalesced nothing). -/
structure GroMsg where
  bytes : Nat
  src : Addr
  groCmsgs : List Nat

/-- `recv_from_gro`, `recvfrom.rs` lines 39-53: `gro_size` starts at 0 and
is overwritten by each `UdpGroSegments` control message (so it stays 0 when
none is present). -/
def recv_from_gro (m : GroMsg) : RecvTriple :=
  ⟨m.bytes, m.src, m.groCmsgs.foldl (fun _ s => s) 0⟩

/-- `recv_from`, `recvfrom.rs` lines 60-72: with GRO enabled delegate to
`recv_from_gro`; otherwise a plain `recv_from` reporting
`(size, addr, size as u16)`. -/
def recv_from (enableGro : Bool) (m : GroMsg) : RecvTriple :=
  if enableGro then recv_from_gro m
  else ⟨m.bytes, m.src, m.bytes % 65536⟩

/-! ## Segment dispatch (`src/runner.rs`, `handle_readable_event`) -/

/-- `quiche::RecvInfo`: `dst` models the `to` field (the receiving socket's
local address, a keyword in Lean), `src` models the `from` field (datagram
origin). -/
structure RecvInfo where
  dst : Addr
  src : Addr
deriving DecidableEq

/-- The engine's per-segment receive entry point (`endpoint.recv`),
supplied as an oracle: the result may depend on the segment bytes and the
address pair. -/
abbrev EngineRecv := List Byte → RecvInfo → Except EndpointError Unit

/-- The effective segment size, `runner.rs` lines 191-195:
```
let segment_size = if segment_size == 0 { len } else { segment_size as usize };
```
-/
def effectiveSegmentSize (segSize len : Nat) : Nat :=
  if segSize = 0 then len else segSize

/-- Rust `slice::chunks` with non-zero chunk size `n + 1`: successive
chunks of `n + 1` elements, the last possibly shorter. -/
def chunksPos (n : Nat) : List Byte → List (List Byte)
  | [] => []
  | b :: l => ((b :: l).take (n + 1)) :: chunksPos n ((b :: l).drop (n + 1))
termination_by l => l.length
decreasing_by simp [List.drop]; omega

/-- Rust `slice::chunks(size)` as used at `runner.rs` line 206: `chunks`
asserts that the chunk size is non-zero, so `none` models the panic on a
zero chunk size. -/
def chunksRust (l : List Byte) (size : Nat) : Option (List (List Byte)) :=
  match size with
  | 0 => none
  | n + 1 => some (chunksPos n l)

/-- How `handle_readable_event` reacts to one `endpoint.recv` result,
`runner.rs` lines 207-238: `proceed` is the `Ok` arm and every
log-skip-`continue` arm, `stopDatagram` the would-block `break`, and
`fatalPanic` the two `panic!` arms. -/
inductive SegAction where
  | proceed
  | stopDatagram
  | fatalPanic
deriving DecidableEq

/-- The classification of a single `endpoint.recv` result performed by the
match at `runner.rs` lines 207-238. -/
def classifySegResult : Except EndpointError Unit → SegAction
  | .ok _ => .proceed
  | .error .invalidHeader => .proceed
  | .error .unknownConnID => .proceed
  | .error (.io k) => if k = .wouldBlock then .stopDatagram else .fatalPanic
  | .error .invalidAddrToken => .proceed
  | .error .invalidConnID => .proceed
  | .error .quicheRecvFailed => .proceed
  | .error .closeByUser => .fatalPanic
  | .error .otherError => .fatalPanic

/-- How the per-datagram segment loop ended: all chunks attempted (`done`),
`break` on an engine would-block (`stoppedWouldBlock`), or `panic!`
(`panicked`). -/
inductive SegExit where
  | done
  | stoppedWouldBlock
  | panicked
deriving DecidableEq

/-- One call into `endpoint.recv`: the segment bytes and the address pair
passed with it. -/
structure RecvCall where
  data : List Byte
  info : RecvInfo
deriving DecidableEq

/-- The `for segment in buf[..len].chunks_mut(segment_size)` loop of
`runner.rs` lines 206-239: each chunk is handed to `endpoint.recv`; a
`proceed` result moves to the next chunk, `stopDatagram` breaks out of the
loop, `fatalPanic` aborts. Returns the calls made, in order, and how the
loop ended. -/
def segmentLoop (eng : EngineRecv) (info : RecvInfo) :
    List (List Byte) → List RecvCall × SegExit
  | [] => ([], .done)
  | seg :: rest =>
    match classifySegResult (eng seg info) with
    | .proceed =>
      let r := segmentLoop eng info rest
      (⟨seg, info⟩ :: r.1, r.2)
    | .stopDatagram => ([⟨seg, info⟩], .stoppedWouldBlock)
    | .fatalPanic => ([⟨seg, info⟩], .panicked)

/-- Processing of one received datagram, `runner.rs` lines 191-239:
compute the effective segment size, chunk the received `len` bytes
(`payload` is `buf[..len]`, so `len = payload.length`), and run the segment
loop. `none` models the `chunks` panic on a zero chunk size. -/
def processDatagram (eng : EngineRecv) (localAddr srcAddr : Addr)
    (payload : List Byte) (segSize : Nat) : Option (List RecvCall × SegExit) :=
  match chunksRust payload (effectiveSegmentSize segSize payload.length) with
  | none => none
  | some segs => some (segmentLoop eng ⟨localAddr, srcAddr⟩ segs)

/-- One datagram as reported by `Socket::recv`: the payload slice
(`buf[..len]`), the origin address, and the reported `u16` segment size. -/
structure DatagramMsg where
  payload : List Byte
  src : Addr
  segSize : Nat
deriving DecidableEq

/-- The script of results successive `socket.recv` calls will return during
one readable-event drain. -/
inductive SockRecv where
  | msg (d : DatagramMsg)
  | err (k : IOKind)
deriving DecidableEq

/-- The `'read` drain loop of `handle_readable_event`, `runner.rs` lines
175-241: each iteration calls `socket.recv`; a would-block error breaks the
loop with `Ok(())`, any other receive error returns `Err(Error::IO(e))`,
and a datagram is processed through `processDatagram` (whose engine-side
`panic!` outcomes abort, modelled as `none`) before the loop continues.
Returns the datagrams processed, in order, and the handler's return value.
An exhausted script also ends the loop (a real socket eventually reports
would-block). -/
def drainLoop (eng : EngineRecv) (localAddr : Addr) :
    List SockRecv → Option (List DatagramMsg × Except EndpointError Unit)
  | [] => some ([], .ok ())
  | .err k :: _ =>
    if k = .wouldBlock then some ([], .ok ())
    else some ([], .error (.io k))
  | .msg d :: rest =>
    match processDatagram eng localAddr d.src d.payload d.segSize with
    | none => none
    | some (_, .panicked) => none
    | some (_, .done) =>
      match drainLoop eng localAddr rest with
      | none => none
      | some (ds, r) => some (d :: ds, r)
    | some (_, .stoppedWouldBlock) =>
      match drainLoop eng localAddr rest with
      | none => none
      | some (ds, r) => some (d :: ds, r)

/-! ## Run loop (`src/runner.rs`, `Runner::run` and `handle_event`) -/

/-- What one arm of the match at `runner.rs` lines 104-110 does with a
`handle_event` result: continue with the next ready event (`Ok`),
`break 'run` (`Err(CloseByUser)`), or `panic!` (any other error). -/
inductive LoopStep where
  | proceed
  | breakRun
  | panicked
deriving DecidableEq

/-- The match on a `handle_event` result, `runner.rs` lines 104-110. -/
def runHandle : Except EndpointError Unit → LoopStep
  | .ok _ => .proceed
  | .error .closeByUser => .breakRun
  | .error _ => .panicked

/-- The `for mio_event in &self.mio_events` dispatch loop, `runner.rs`
lines 94-111, applied to the per-event `handle_event` results in readiness
order: counts the events actually dispatched and reports how the loop
ended (`breakRun` and `panicked` short-circuit, leaving later events
undispatched). -/
def dispatchLoop : List (Except EndpointError Unit) → Nat × LoopStep
  | [] => (0, .proceed)
  | r :: rest =>
    match runHandle r with
    | .proceed =>
      let t := dispatchLoop rest
      (t.1 + 1, t.2)
    | .breakRun => (1, .breakRun)
    | .panicked => (1, .panicked)

/-- The `Event` enum of `runner.rs` lines 278-282: a shutdown-signal
descriptor, a socket descriptor (slab token), or an external descriptor
carrying an opaque value. -/
inductive MEvent (T : Type) where
  | close
  | socket (tok : Nat)
  | external (v : T)

/-- `Runner::handle_event`, `runner.rs` lines 137-159: `Close` returns
`Err(Error::CloseByUser)`; a socket event returns whatever
`handle_readable_event` returns (supplied as the oracle `socketOutcome`,
since it depends on socket and engine state; its internal panics abort the
process before returning); an external event invokes the configured hook
on the engine (an engine-state effect outside this model) and returns
`Ok(())`. -/
def handle_event {T : Type} (socketOutcome : Nat → Except EndpointError Unit) :
    MEvent T → Except EndpointError Unit
  | .close => .error .closeByUser
  | .socket tok => socketOutcome tok
  | .external _ => .ok ()

/-- The runner state the loop itself mutates: the optional application
timeout (`runner.rs` line 23). The engine, sockets and scratch buffer are
oracle inputs per iteration. -/
structure RunnerState where
  appTimeout : Option Nat
deriving DecidableEq

/-- `Runner::set_app_timeout`, `runner.rs` lines 250-252. -/
def set_app_timeout (st : RunnerState) (d : Nat) : RunnerState :=
  { st with appTimeout := some d }

/-- The engine- and poll-side facts one loop iteration observes:
whether the engine has queued sends, its protocol timeout, the ready
events the poll returned (in readiness order), the result each socket
event's `handle_readable_event` would produce, and the engine's mode and
post-garbage-collection connection count at the termination check. -/
structure IterInput (T : Type) where
  hasPendingSends : Bool
  quicTimeout : Option Nat
  readyEvents : List (MEvent T)
  socketOutcome : Nat → Except EndpointError Unit
  isServer : Bool
  numConns : Nat

/-- How one iteration of `Runner::run` ends: `break 'run` on a shutdown
signal, a `panic!`, the all-client-connections-closed `break`, or falling
through to the next iteration. -/
inductive IterOutcome where
  | closedByUser
  | panicked
  | allConnsClosed
  | nextIteration
deriving DecidableEq

/-- Observables of one iteration: the computed poll timeout, the value of
the application timeout right after the `take()` in the timeout
computation, how many ready events were dispatched, whether the
post-receive hook ran, and how the iteration ended. -/
structure IterTrace where
  pollTimeout : Option Nat
  appTimeoutAfterTake : Option Nat
  dispatchedCount : Nat
  postHookInvoked : Bool
  outcome : IterOutcome
deriving DecidableEq

/-- The termination check, `runner.rs` line 131:
`!self.endpoint.is_server() && self.endpoint.num_conns() == 0`. -/
def terminationCheck (isServer : Bool) (numConns : Nat) : Bool :=
  !isServer && numConns == 0

/-- One iteration of the `'run` loop, `runner.rs` lines 69-133: compute the
timeout (taking, and thereby clearing, the application timeout), poll
(abstracted: `inp.readyEvents` is what the poll returned, after the
interrupted-retry loop), run the pre-receive hook, then either advance the
engine's timeout state (no events and nothing to send) or dispatch every
ready event until a short-circuit; on `break 'run` or `panic!` the
post-receive hook is never reached, otherwise the post-receive hook runs,
the send loop drains the engine (engine-state effect, abstracted),
garbage collection runs, and the termination check decides whether the
loop continues. -/
def runIteration {T : Type} (preHook postHook : RunnerState → RunnerState)
    (inp : IterInput T) (st : RunnerState) : IterTrace × RunnerState :=
  let appT := st.appTimeout
  let st1 : RunnerState := { st with appTimeout := none }
  let timeout := computeTimeout inp.hasPendingSends inp.quicTimeout appT
  let st2 := preHook st1
  if inp.readyEvents.isEmpty && !inp.hasPendingSends then
    let st3 := postHook st2
    if terminationCheck inp.isServer inp.numConns then
      (⟨timeout, st1.appTimeout, 0, true, .allConnsClosed⟩, st3)
    else
      (⟨timeout, st1.appTimeout, 0, true, .nextIteration⟩, st3)
  else
    let d := dispatchLoop (inp.readyEvents.map (handle_event inp.socketOutcome))
    match d.2 with
    | .breakRun => (⟨timeout, st1.appTimeout, d.1, false, .closedByUser⟩, st2)
    | .panicked => (⟨timeout, st1.appTimeout, d.1, false, .panicked⟩, st2)
    | .proceed =>
      let st3 := postHook st2
      if terminationCheck inp.isServer inp.numConns then
        (⟨timeout, st1.appTimeout, d.1, true, .allConnsClosed⟩, st3)
      else
        (⟨timeout, st1.appTimeout, d.1, true, .nextIteration⟩, st3)

/-- C1: the poll timeout matches the documented rule in every one of the five
cases: pending sends force a zero timeout; a lone engine timeout is used; a
lone application timeout is used; when both are armed their minimum is used;
with neither the poll blocks indefinitely (`none`). -/
theorem C1_timeout_rule :
    (∀ qt appt, computeTimeout true qt appt = some 0) ∧
    (∀ d, computeTimeout false (some d) none = some d) ∧
    (∀ d, computeTimeout false none (some d) = some d) ∧
    (∀ q a, computeTimeout false (some q) (some a) = some (min q a)) ∧
    computeTimeout false none none = none := by
  refine ⟨fun qt appt => rfl, fun d => rfl, fun d => rfl, fun q a => rfl, rfl⟩

/-- C2: the registry invariant holds for the empty registry and is preserved
by `insert`; under it, `send`'s resolution of `send_info.from` through the
reverse index yields a socket whose cached local address equals
`send_info.from`, and an unregistered source address makes resolution panic
(`none`), never silently succeed. -/
theorem C2_registry_send_resolution :
    MioSockets.Inv MioSockets.emptyReg ∧
    (∀ s sock, MioSockets.Inv s → MioSockets.Inv (s.insert sock).2) ∧
    (∀ s info, MioSockets.Inv s →
      (∀ sock, s.resolveSendSocket info = some sock → sock.local_addr = info.src) ∧
      (s.src_addr_to_key info.src = none → s.resolveSendSocket info = none) ∧
      (s.src_addr_to_key info.src ≠ none →
        ∃ sock, s.resolveSendSocket info = some sock ∧
          sock.local_addr = info.src)) := by
  refine ⟨⟨fun a k h => by simp [MioSockets.emptyReg] at h, fun k _ => rfl⟩, ?_, ?_⟩
  · rintro s sock ⟨hmap, hvac⟩
    constructor
    · intro a k h
      simp only [MioSockets.insert] at h ⊢
      by_cases ha : a = sock.local_addr
      · subst ha
        simp at h
        subst h
        exact ⟨sock, by simp, rfl⟩
      · simp [ha] at h
        obtain ⟨s0, hs0, hloc⟩ := hmap a k h
        have hk : k ≠ s.next := by
          intro hk
          rw [hk, hvac s.next le_rfl] at hs0
          exact Option.noConfusion hs0
        exact ⟨s0, by simp [hk, hs0], hloc⟩
    · intro k hk
      simp only [MioSockets.insert] at hk ⊢
      have hk1 : k ≠ s.next := by omega
      simp [hk1]
      exact hvac k (by omega)
  · rintro s info ⟨hmap, hvac⟩
    refine ⟨?_, ?_, ?_⟩
    · intro sock h
      cases hidx : s.src_addr_to_key info.src with
      | none => simp [MioSockets.resolveSendSocket, hidx] at h
      | some key =>
        simp only [MioSockets.resolveSendSocket, hidx] at h
        obtain ⟨s0, hs0, hloc⟩ := hmap info.src key hidx
        rw [hs0] at h
        cases h
        exact hloc
    · intro h
      simp [MioSockets.resolveSendSocket, h]
    · intro h
      cases hidx : s.src_addr_to_key info.src with
      | none => exact absurd hidx h
      | some key =>
        obtain ⟨s0, hs0, hloc⟩ := hmap info.src key hidx
        exact ⟨s0, by simp [MioSockets.resolveSendSocket, hidx, hs0], hloc⟩

/-- Witness for C2: in the registry formed by inserting a socket bound to
address 5 into the empty registry, resolving a send from address 5 finds
that socket, and resolving a send from the unregistered address 7 panics. -/
theorem C2_registry_send_resolution_witness :
    (∃ sock, (MioSockets.emptyReg.insert ⟨5⟩).2.resolveSendSocket ⟨5⟩ = some sock ∧
      sock.local_addr = 5) ∧
    (MioSockets.emptyReg.insert ⟨5⟩).2.resolveSendSocket ⟨7⟩ = none := by
  have hinv : MioSockets.Inv (MioSockets.emptyReg.insert ⟨5⟩).2 :=
    C2_registry_send_resolution.2.1 MioSockets.emptyReg ⟨5⟩
      C2_registry_send_resolution.1
  refine ⟨(C2_registry_send_resolution.2.2 _ ⟨5⟩ hinv).2.2 (by simp [MioSockets.insert, MioSockets.emptyReg]),
    (C2_registry_send_resolution.2.2 _ ⟨7⟩ hinv).2.1 (by simp [MioSockets.insert, MioSockets.emptyReg])⟩

/-- Unfolding `chunksPos` on a full-size leading chunk. -/
theorem chunksPos_append (n : Nat) (l r : List Byte) (hl : l.length = n + 1) :
    chunksPos n (l ++ r) = l :: chunksPos n r := by
  match l, hl with
  | b :: t, hl =>
    have ht : t.length = n := by simpa using hl
    rw [List.cons_append, chunksPos, List.take_succ_cons, List.drop_succ_cons,
      List.take_left' ht, List.drop_left' ht]

/-- Chunking a buffer of `k` whole segments of size `n + 1` yields exactly
those `k` segments. -/
theorem chunksPos_replicate (n : Nat) (b : Byte) :
    ∀ k, chunksPos n (List.replicate (k * (n + 1)) b) =
      List.replicate k (List.replicate (n + 1) b)
  | 0 => by simp [chunksPos]
  | k + 1 => by
    have h1 : List.replicate ((k + 1) * (n + 1)) b =
        List.replicate (n + 1) b ++ List.replicate (k * (n + 1)) b := by
      rw [← List.replicate_add]
      congr 1
      ring
    rw [h1, chunksPos_append n _ _ (by simp), chunksPos_replicate n b k]
    simp [List.replicate_succ]

/-- A segment loop in which the engine accepts (or skippably rejects)
every chunk attempts every chunk, in order, and ends normally. -/
theorem segmentLoop_proceed_all (eng : EngineRecv) (info : RecvInfo)
    (segs : List (List Byte))
    (h : ∀ seg ∈ segs, classifySegResult (eng seg info) = .proceed) :
    segmentLoop eng info segs =
      (segs.map fun s => (⟨s, info⟩ : RecvCall), .done) := by
  induction segs with
  | nil => rfl
  | cons a l ih =>
    have ha := h a (List.mem_cons_self a l)
    simp only [segmentLoop, ha, ih fun s hs => h s (List.mem_cons_of_mem a hs),
      List.map_cons]

/-- Processing a datagram whose reported segment size is non-zero or whose
payload is non-empty does not hit the zero-chunk-size panic, and with an
all-accepting engine ends normally. -/
theorem processDatagram_all_ok (laddr saddr : Addr) (payload : List Byte)
    (segSize : Nat) (h : segSize ≠ 0 ∨ payload ≠ []) :
    ∃ calls, processDatagram (fun _ _ => .ok ()) laddr saddr payload segSize =
      some (calls, .done) := by
  have heff : effectiveSegmentSize segSize payload.length ≠ 0 := by
    unfold effectiveSegmentSize
    rcases h with h | h
    · simp [h]
    · have : payload.length ≠ 0 := by simpa using h
      split <;> omega
  unfold processDatagram
  cases he : effectiveSegmentSize segSize payload.length with
  | zero => exact absurd he heff
  | succ n =>
    refine ⟨(chunksPos n payload).map fun s => ⟨s, ⟨laddr, saddr⟩⟩, ?_⟩
    simp only [chunksRust]
    exact congrArg some (segmentLoop_proceed_all _ _ _ fun seg _ => rfl)

/-- C3: the dispatcher's classification of each `endpoint.recv` failure is
exactly the documented one — malformed header, unknown connection id,
invalid connection id, invalid address-validation token and
underlying-quiche receive failure are skipped with processing continuing;
an engine would-block stops only the current datagram's remaining
segments; any other engine `IO` error and any unclassified engine error
panic — and the segment loop acts on that classification: a skipped
segment is followed by the remaining segments, a would-block or fatal
result discards the remaining segments of this datagram. -/
theorem C3_engine_recv_error_classification :
    classifySegResult (.ok ()) = .proceed ∧
    classifySegResult (.error .invalidHeader) = .proceed ∧
    classifySegResult (.error .unknownConnID) = .proceed ∧
    classifySegResult (.error .invalidConnID) = .proceed ∧
    classifySegResult (.error .invalidAddrToken) = .proceed ∧
    classifySegResult (.error .quicheRecvFailed) = .proceed ∧
    classifySegResult (.error (.io .wouldBlock)) = .stopDatagram ∧
    (∀ k, k ≠ IOKind.wouldBlock →
      classifySegResult (.error (.io k)) = .fatalPanic) ∧
    classifySegResult (.error .closeByUser) = .fatalPanic ∧
    classifySegResult (.error .otherError) = .fatalPanic ∧
    (∀ eng info seg rest, classifySegResult (eng seg info) = .proceed →
      segmentLoop eng info (seg :: rest) =
        (⟨seg, info⟩ :: (segmentLoop eng info rest).1,
          (segmentLoop eng info rest).2)) ∧
    (∀ eng info seg rest, classifySegResult (eng seg info) = .stopDatagram →
      segmentLoop eng info (seg :: rest) = ([⟨seg, info⟩], .stoppedWouldBlock)) ∧
    (∀ eng info seg rest, classifySegResult (eng seg info) = .fatalPanic →
      segmentLoop eng info (seg :: rest) = ([⟨seg, info⟩], .panicked)) := by
  refine ⟨rfl, rfl, rfl, rfl, rfl, rfl, rfl, ?_, rfl, rfl, ?_, ?_, ?_⟩
  · intro k hk
    cases k with
    | wouldBlock => exact absurd rfl hk
    | interrupted => rfl
    | other => rfl
  · intro eng info seg rest h
    simp only [segmentLoop, h]
  · intro eng info seg rest h
    simp only [segmentLoop, h]
  · intro eng info seg rest h
    simp only [segmentLoop, h]

/-- Witness for C3: a non-would-block engine `IO` error is fatal, and a
concrete segment loop skips a malformed-header segment but still attempts
the next one. -/
theorem C3_engine_recv_error_classification_witness :
    classifySegResult (.error (.io .other)) = .fatalPanic ∧
    segmentLoop (fun seg _ => if seg = [0] then .error .invalidHeader else .ok ())
        ⟨1, 2⟩ [[0], [1]] =
      ([⟨[0], ⟨1, 2⟩⟩, ⟨[1], ⟨1, 2⟩⟩], .done) := by
  refine ⟨C3_engine_recv_error_classification.2.2.2.2.2.2.2.1 .other (by decide), ?_⟩
  have h := C3_engine_recv_error_classification.2.2.2.2.2.2.2.2.2.2.1
    (fun seg _ => if seg = [0] then .error .invalidHeader else .ok ())
    ⟨1, 2⟩ [0] [[1]] (by decide)
  rw [h]
  decide

/-- A run of events whose handling all says `proceed` only prepends its
length to the dispatch count; the loop outcome is decided afterwards. -/
theorem dispatchLoop_proceed_front (rs tail : List (Except EndpointError Unit))
    (h : ∀ x ∈ rs, runHandle x = .proceed) :
    dispatchLoop (rs ++ tail) =
      ((dispatchLoop tail).1 + rs.length, (dispatchLoop tail).2) := by
  induction rs with
  | nil => simp
  | cons a l ih =>
    have ha := h a (List.mem_cons_self a l)
    have ih2 := ih fun x hx => h x (List.mem_cons_of_mem a hx)
    have hstep : dispatchLoop (a :: (l ++ tail)) =
        ((dispatchLoop (l ++ tail)).1 + 1, (dispatchLoop (l ++ tail)).2) := by
      simp only [dispatchLoop, ha]
    calc dispatchLoop ((a :: l) ++ tail)
        = ((dispatchLoop (l ++ tail)).1 + 1, (dispatchLoop (l ++ tail)).2) :=
          hstep
      _ = ((dispatchLoop tail).1 + (a :: l).length, (dispatchLoop tail).2) := by
          rw [ih2]
          simp only [List.length_cons, Prod.mk.injEq]
          exact ⟨by omega, by trivial⟩

/-- C4: a Shutdown-signal (`Close`) ready event terminates the run loop at
the point it is dispatched, wherever it sits in the iteration's readiness
order: the events before it (all handled without short-circuit) plus the
`Close` event itself are the only ones dispatched, no event after it is,
and the post-receive hook is not invoked. -/
theorem C4_close_short_circuit :
    ∀ (T : Type) (preHook postHook : RunnerState → RunnerState)
      (inp : IterInput T) (st : RunnerState) (pre post : List (MEvent T)),
      inp.readyEvents = pre ++ MEvent.close :: post →
      (∀ ev ∈ pre, runHandle (handle_event inp.socketOutcome ev) = .proceed) →
      (runIteration preHook postHook inp st).1.outcome = .closedByUser ∧
      (runIteration preHook postHook inp st).1.dispatchedCount = pre.length + 1 ∧
      (runIteration preHook postHook inp st).1.postHookInvoked = false := by
  intro T preHook postHook inp st pre post hsplit hpre
  have hdl : dispatchLoop (inp.readyEvents.map (handle_event inp.socketOutcome)) =
      (pre.length + 1, .breakRun) := by
    rw [hsplit, List.map_append, List.map_cons]
    rw [dispatchLoop_proceed_front _ _ (by
      intro x hx
      obtain ⟨ev, hev, hx⟩ := List.mem_map.1 hx
      exact hx ▸ hpre ev hev)]
    simp only [handle_event, dispatchLoop, runHandle, List.length_map,
      Prod.mk.injEq]
    exact ⟨by omega, by trivial⟩
  have hne : inp.readyEvents.isEmpty = false := by
    rw [hsplit]
    cases pre <;> rfl
  simp [runIteration, hne, hdl]

/-- Witness for C4: with the shutdown event as the only ready event, the
iteration ends as `closedByUser`, dispatches exactly one event, and skips
the post-receive hook. -/
theorem C4_close_short_circuit_witness :
    (runIteration id id
      (⟨false, none, [MEvent.close], fun _ => .ok (), true, 3⟩ : IterInput Unit)
      ⟨none⟩).1.outcome = .closedByUser ∧
    (runIteration id id
      (⟨false, none, [MEvent.close], fun _ => .ok (), true, 3⟩ : IterInput Unit)
      ⟨none⟩).1.dispatchedCount = 0 + 1 ∧
    (runIteration id id
      (⟨false, none, [MEvent.close], fun _ => .ok (), true, 3⟩ : IterInput Unit)
      ⟨none⟩).1.postHookInvoked = false := by
  have h := C4_close_short_circuit Unit id id
    ⟨false, none, [MEvent.close], fun _ => .ok (), true, 3⟩ ⟨none⟩ [] []
    rfl (by simp)
  simpa using h

/-- Unfolding the drain loop at a cleanly processed datagram: the datagram
is recorded and draining continues with the remaining receive results. -/
theorem drainLoop_msg_cons (eng : EngineRecv) (laddr : Addr) (d : DatagramMsg)
    (rest : List SockRecv) (calls : List RecvCall)
    (h : processDatagram eng laddr d.src d.payload d.segSize =
      some (calls, .done)) :
    drainLoop eng laddr (.msg d :: rest) =
      match drainLoop eng laddr rest with
      | none => none
      | some (ds, r) => some (d :: ds, r) := by
  simp only [drainLoop, h]

/-- C5: the drain loop over a readable socket stops exactly at the first
would-block receive — every datagram read before that point has been
processed and handed to the engine, none is dropped, and the receive
results scripted after the stop are never read — while any other receive
error is returned to the run loop, again with all previously read
datagrams processed, and the run loop's handling of that error is a
`panic!`. -/
theorem C5_drain_stops_on_would_block :
    ∀ (laddr : Addr) (msgs : List DatagramMsg) (rest : List SockRecv)
      (k : IOKind),
      (∀ d ∈ msgs, d.segSize ≠ 0 ∨ d.payload ≠ []) →
      (drainLoop (fun _ _ => .ok ()) laddr
          (msgs.map SockRecv.msg ++ SockRecv.err .wouldBlock :: rest) =
        some (msgs, .ok ())) ∧
      (k ≠ .wouldBlock →
        drainLoop (fun _ _ => .ok ()) laddr
            (msgs.map SockRecv.msg ++ SockRecv.err k :: rest) =
          some (msgs, .error (.io k)) ∧
        runHandle (.error (.io k)) = .panicked) := by
  intro laddr msgs rest k hmsgs
  induction msgs with
  | nil =>
    refine ⟨by simp [drainLoop], fun hk => ⟨?_, ?_⟩⟩
    · simp [drainLoop, hk]
    · cases k with
      | wouldBlock => exact absurd rfl hk
      | interrupted => rfl
      | other => rfl
  | cons d ds ih =>
    have hd := hmsgs d (List.mem_cons_self d ds)
    obtain ⟨calls, hpd⟩ :=
      processDatagram_all_ok laddr d.src d.payload d.segSize hd
    have ih2 := ih fun x hx => hmsgs x (List.mem_cons_of_mem d hx)
    constructor
    · rw [List.map_cons, List.cons_append,
        drainLoop_msg_cons _ _ _ _ calls hpd, ih2.1]
    · intro hk
      refine ⟨?_, (ih2.2 hk).2⟩
      rw [List.map_cons, List.cons_append,
        drainLoop_msg_cons _ _ _ _ calls hpd, (ih2.2 hk).1]

/-- Witness for C5: with two well-formed datagrams queued ahead of a
would-block, both are processed and the drain ends cleanly; with a
non-would-block error in their place, both are still processed, the error
propagates, and the run loop panics on it. -/
theorem C5_drain_stops_on_would_block_witness :
    (drainLoop (fun _ _ => .ok ()) 1
        ([⟨[7], 9, 0⟩, ⟨[8, 9], 9, 1⟩].map SockRecv.msg ++
          SockRecv.err .wouldBlock :: [SockRecv.msg ⟨[5], 9, 1⟩]) =
      some ([⟨[7], 9, 0⟩, ⟨[8, 9], 9, 1⟩], .ok ())) ∧
    (drainLoop (fun _ _ => .ok ()) 1
        ([⟨[7], 9, 0⟩, ⟨[8, 9], 9, 1⟩].map SockRecv.msg ++
          SockRecv.err .other :: [SockRecv.msg ⟨[5], 9, 1⟩]) =
      some ([⟨[7], 9, 0⟩, ⟨[8, 9], 9, 1⟩], .error (.io .other)) ∧
      runHandle (.error (.io .other)) = .panicked) := by
  have h := C5_drain_stops_on_would_block 1 [⟨[7], 9, 0⟩, ⟨[8, 9], 9, 1⟩]
    [SockRecv.msg ⟨[5], 9, 1⟩] .other (by decide)
  exact ⟨h.1, h.2 (by decide)⟩

/-- C6: a coalesced receive of 9000 bytes with reported segment size 1500
is dispatched as exactly 6 independent `endpoint.recv` calls, each
carrying a 1500-byte segment and the receiving socket's local address
paired with the datagram's source address. -/
theorem C6_coalesced_receive_segmentation :
    ∀ (laddr saddr : Addr) (b : Byte), ∃ calls,
      processDatagram (fun _ _ => .ok ()) laddr saddr
          (List.replicate 9000 b) 1500 = some (calls, .done) ∧
      calls.length = 6 ∧
      ∀ c ∈ calls, c.data.length = 1500 ∧ c.info.dst = laddr ∧
        c.info.src = saddr := by
  intro laddr saddr b
  have hchunks : chunksRust (List.replicate 9000 b)
      (effectiveSegmentSize 1500 (List.replicate 9000 b).length) =
      some (List.replicate 6 (List.replicate 1500 b)) := by
    have heff : effectiveSegmentSize 1500 (List.replicate 9000 b).length =
        1500 := by
      simp [effectiveSegmentSize]
    rw [heff]
    show some (chunksPos 1499 (List.replicate 9000 b)) = _
    rw [show (9000 : Nat) = 6 * (1499 + 1) by norm_num, chunksPos_replicate]
  refine ⟨(List.replicate 6 (List.replicate 1500 b)).map
    (fun s => ⟨s, ⟨laddr, saddr⟩⟩), ?_, ?_, ?_⟩
  · unfold processDatagram
    rw [hchunks]
    exact congrArg some (segmentLoop_proceed_all _ _ _ fun seg _ => rfl)
  · rw [List.length_map, List.length_replicate]
  · intro c hc
    obtain ⟨s, hs, hc⟩ := List.mem_map.1 hc
    have hs1500 : s = List.replicate 1500 b := List.eq_of_mem_replicate hs
    subst hc
    subst hs1500
    exact ⟨List.length_replicate _ _, rfl, rfl⟩

/-- C7: with receive offload disabled, `recv_from` reports a segment size
equal to the received length (the `as u16` cast is lossless for any UDP
datagram, whose payload is below 65536 bytes); and whenever a reported
segment size is 0, the dispatcher's effective segment size is the whole
received length. -/
theorem C7_segment_size_reporting :
    (∀ m : GroMsg, m.bytes ≤ 65535 →
      (recv_from false m).seg = (recv_from false m).len) ∧
    (∀ len, effectiveSegmentSize 0 len = len) := by
  constructor
  · intro m hm
    simp only [recv_from, if_neg (by simp : ¬(false = true))]
    exact Nat.mod_eq_of_lt (by omega)
  · intro len
    rfl

/-- Witness for C7: a 1200-byte plain receive reports segment size 1200,
and a reported segment size of 0 over 9000 received bytes is treated as
one 9000-byte segment. -/
theorem C7_segment_size_reporting_witness :
    (recv_from false ⟨1200, 4, []⟩).seg = (recv_from false ⟨1200, 4, []⟩).len ∧
    effectiveSegmentSize 0 9000 = 9000 :=
  ⟨C7_segment_size_reporting.1 ⟨1200, 4, []⟩ (by norm_num),
    C7_segment_size_reporting.2 9000⟩

/-- C8: the run loop's termination check stops the loop exactly when the
engine is not a server and reports zero connections: an iteration that is
not ended by a shutdown signal or a panic ends with `allConnsClosed` if
and only if the engine is in client mode with zero connections (so a
client reaching zero connections terminates at that very check), and a
server-mode engine never produces `allConnsClosed`. -/
theorem C8_client_mode_termination :
    ∀ (T : Type) (preHook postHook : RunnerState → RunnerState)
      (inp : IterInput T) (st : RunnerState),
      (inp.isServer = true →
        (runIteration preHook postHook inp st).1.outcome ≠ .allConnsClosed) ∧
      ((runIteration preHook postHook inp st).1.outcome ≠ .closedByUser →
        (runIteration preHook postHook inp st).1.outcome ≠ .panicked →
        ((runIteration preHook postHook inp st).1.outcome = .allConnsClosed ↔
          inp.isServer = false ∧ inp.numConns = 0)) := by
  intro T preHook postHook inp st
  have hterm : terminationCheck inp.isServer inp.numConns = true ↔
      inp.isServer = false ∧ inp.numConns = 0 := by
    unfold terminationCheck
    cases hs : inp.isServer <;> simp
  unfold runIteration
  cases hempty : inp.readyEvents.isEmpty && !inp.hasPendingSends with
  | true =>
    by_cases ht : terminationCheck inp.isServer inp.numConns = true
    · simp only [ht, if_true]
      refine ⟨fun hs => ?_, fun _ _ => by simpa using hterm.1 ht⟩
      obtain ⟨hs0, _⟩ := hterm.1 ht
      rw [hs] at hs0
      exact absurd hs0 (by simp)
    · simp only [Bool.not_eq_true] at ht
      simp only [ht]
      exact ⟨fun _ => by simp, fun _ _ => by
        constructor
        · intro h
          exact absurd h (by simp)
        · intro h
          exact absurd (hterm.2 h) (by simp [ht])⟩
  | false =>
    simp only [Bool.false_eq_true, if_false]
    cases hd : (dispatchLoop (inp.readyEvents.map
        (handle_event inp.socketOutcome))).2 with
    | breakRun =>
      exact ⟨fun _ hcon => IterOutcome.noConfusion hcon, fun h _ => (h rfl).elim⟩
    | panicked =>
      exact ⟨fun _ hcon => IterOutcome.noConfusion hcon, fun _ h => (h rfl).elim⟩
    | proceed =>
      by_cases ht : terminationCheck inp.isServer inp.numConns = true
      · simp only [ht, if_true]
        refine ⟨fun hs => ?_, fun _ _ => by simpa using hterm.1 ht⟩
        obtain ⟨hs0, _⟩ := hterm.1 ht
        rw [hs] at hs0
        exact absurd hs0 (by simp)
      · simp only [Bool.not_eq_true] at ht
        simp only [ht]
        exact ⟨fun _ => by simp, fun _ _ => by
          constructor
          · intro h
            exact absurd h (by simp)
          · intro h
            exact absurd (hterm.2 h) (by simp [ht])⟩

/-- Witness for C8: a client-mode iteration with zero connections and no
activity terminates with `allConnsClosed` at its termination check, while
the same iteration in server mode does not. -/
theorem C8_client_mode_termination_witness :
    ((runIteration id id
        (⟨false, none, [], fun _ => .ok (), false, 0⟩ : IterInput Unit)
        ⟨none⟩).1.outcome = .allConnsClosed ↔ (false = false ∧ 0 = 0)) ∧
    (runIteration id id
        (⟨false, none, [], fun _ => .ok (), true, 0⟩ : IterInput Unit)
        ⟨none⟩).1.outcome ≠ .allConnsClosed := by
  constructor
  · exact (C8_client_mode_termination Unit id id
      ⟨false, none, [], fun _ => .ok (), false, 0⟩ ⟨none⟩).2
      (by decide) (by decide)
  · exact (C8_client_mode_termination Unit id id
      ⟨false, none, [], fun _ => .ok (), true, 0⟩ ⟨none⟩).1 rfl

/-- C9: the application timeout is cleared by the `take()` in the timeout
computation in every iteration, whichever timeout branch is taken and
whether or not its value is used for the poll (the computed poll timeout
is exactly `computeTimeout` of the pre-clear value); with the default
no-op hooks it is still clear at the end of the iteration, and only
`set_app_timeout` re-arms it. -/
theorem C9_app_timeout_consumed :
    ∀ (T : Type) (inp : IterInput T) (st : RunnerState),
      (runIteration id id inp st).1.appTimeoutAfterTake = none ∧
      (runIteration id id inp st).2.appTimeout = none ∧
      (runIteration id id inp st).1.pollTimeout =
        computeTimeout inp.hasPendingSends inp.quicTimeout st.appTimeout ∧
      (∀ st2 d, (set_app_timeout st2 d).appTimeout = some d) := by
  intro T inp st
  refine ⟨?_, ?_, ?_, fun st2 d => rfl⟩ <;>
  · simp only [runIteration, id_eq]
    repeat' split
    all_goals rfl

/-- C10: a socket receive of an empty UDP datagram reports segment size 0
(in the plain path the length itself is the reported size; in the GRO path
no coalescing control message accompanies an empty datagram, leaving the
size at its 0 default), the whole-payload-is-one-segment rule then makes
the effective segment size 0, and dispatching such a datagram calls
`chunks` with chunk size 0, which panics (`none`): the process aborts
rather than skipping the datagram or delivering an empty segment. -/
theorem C10_empty_datagram_aborts :
    (∀ m : GroMsg, m.bytes = 0 → (recv_from false m).seg = 0) ∧
    (∀ m : GroMsg, m.groCmsgs = [] → m.bytes = 0 →
      (recv_from true m).seg = 0) ∧
    (∀ (eng : EngineRecv) (laddr saddr : Addr),
      processDatagram eng laddr saddr [] 0 = none) ∧
    (∀ (eng : EngineRecv) (laddr saddr : Addr) (rest : List SockRecv),
      drainLoop eng laddr (.msg ⟨[], saddr, 0⟩ :: rest) = none) := by
  refine ⟨?_, ?_, fun eng laddr saddr => rfl, fun eng laddr saddr rest => rfl⟩
  · intro m hm
    simp [recv_from, hm]
  · intro m hc hm
    simp [recv_from, recv_from_gro, hc]

/-- Witness for C10: a concrete empty datagram reports segment size 0 under
both receive paths, and dispatching it aborts (`none`) instead of being
skipped. -/
theorem C10_empty_datagram_aborts_witness :
    (recv_from false ⟨0, 3, []⟩).seg = 0 ∧
    (recv_from true ⟨0, 3, []⟩).seg = 0 ∧
    processDatagram (fun _ _ => .ok ()) 1 3 [] 0 = none ∧
    drainLoop (fun _ _ => .ok ()) 1 [.msg ⟨[], 3, 0⟩] = none :=
  ⟨C10_empty_datagram_aborts.1 ⟨0, 3, []⟩ rfl,
    C10_empty_datagram_aborts.2.1 ⟨0, 3, []⟩ rfl rfl,
    C10_empty_datagram_aborts.2.2.1 (fun _ _ => .ok ()) 1 3,
    C10_empty_datagram_aborts.2.2.2 (fun _ _ => .ok ()) 1 3 []⟩
